import Mathlib

/-!
# SerenaCLI — formal model of the response-normalization layer

A shallow embedding of `src/serena_cli/main.py` (the result normalizer
`transform_symbol_result`, the find-symbol pipeline: content collection,
language filter, limit, rendering) and of
`src/serena-native-wrapper/src/serena_native/serena_client.py`
(`SerenaClient.get_status`).

JSON values decoded by Python's `json.loads` are modelled by `JVal`;
Python dicts are association lists with first-occurrence lookup and
replace-in-place/append assignment, which matches Python dict semantics on
duplicate-free key lists (the only ones `json.loads` produces).
A Python function that can raise is modelled as returning `Option`,
`none` standing for a raised exception.
-/

namespace SerenaCLI

/-- A JSON value as produced by Python's `json.loads`: `null`, booleans,
integers, strings, arrays and objects.  (The repository's records never
carry floats; fractional numbers are out of the model's scope.) -/
inductive JVal where
  | vnull : JVal
  | vbool : Bool → JVal
  | vint : Int → JVal
  | vstr : String → JVal
  | vlist : List JVal → JVal
  | vobj : List (String × JVal) → JVal
deriving Repr

mutual

/-- Decidable equality for `JVal` (the derive handler does not support the
nested `List` occurrences). -/
def decEqJVal : (a b : JVal) → Decidable (a = b)
  | .vnull, .vnull => isTrue rfl
  | .vbool a, .vbool b =>
      if h : a = b then isTrue (by rw [h]) else isFalse (fun x => h (JVal.vbool.inj x))
  | .vint a, .vint b =>
      if h : a = b then isTrue (by rw [h]) else isFalse (fun x => h (JVal.vint.inj x))
  | .vstr a, .vstr b =>
      if h : a = b then isTrue (by rw [h]) else isFalse (fun x => h (JVal.vstr.inj x))
  | .vlist xs, .vlist ys =>
      match decEqJValList xs ys with
      | isTrue h => isTrue (by rw [h])
      | isFalse h => isFalse (fun x => h (JVal.vlist.inj x))
  | .vobj fs, .vobj gs =>
      match decEqJValFields fs gs with
      | isTrue h => isTrue (by rw [h])
      | isFalse h => isFalse (fun x => h (JVal.vobj.inj x))
  | .vnull, .vbool _ => isFalse nofun
  | .vnull, .vint _ => isFalse nofun
  | .vnull, .vstr _ => isFalse nofun
  | .vnull, .vlist _ => isFalse nofun
  | .vnull, .vobj _ => isFalse nofun
  | .vbool _, .vnull => isFalse nofun
  | .vbool _, .vint _ => isFalse nofun
  | .vbool _, .vstr _ => isFalse nofun
  | .vbool _, .vlist _ => isFalse nofun
  | .vbool _, .vobj _ => isFalse nofun
  | .vint _, .vnull => isFalse nofun
  | .vint _, .vbool _ => isFalse nofun
  | .vint _, .vstr _ => isFalse nofun
  | .vint _, .vlist _ => isFalse nofun
  | .vint _, .vobj _ => isFalse nofun
  | .vstr _, .vnull => isFalse nofun
  | .vstr _, .vbool _ => isFalse nofun
  | .vstr _, .vint _ => isFalse nofun
  | .vstr _, .vlist _ => isFalse nofun
  | .vstr _, .vobj _ => isFalse nofun
  | .vlist _, .vnull => isFalse nofun
  | .vlist _, .vbool _ => isFalse nofun
  | .vlist _, .vint _ => isFalse nofun
  | .vlist _, .vstr _ => isFalse nofun
  | .vlist _, .vobj _ => isFalse nofun
  | .vobj _, .vnull => isFalse nofun
  | .vobj _, .vbool _ => isFalse nofun
  | .vobj _, .vint _ => isFalse nofun
  | .vobj _, .vstr _ => isFalse nofun
  | .vobj _, .vlist _ => isFalse nofun

/-- Decidable equality on lists of `JVal`. -/
def decEqJValList : (a b : List JVal) → Decidable (a = b)
  | [], [] => isTrue rfl
  | [], _ :: _ => isFalse nofun
  | _ :: _, [] => isFalse nofun
  | x :: xs, y :: ys =>
      match decEqJVal x y with
      | isFalse h => isFalse (fun e => h (List.cons.inj e).1)
      | isTrue h1 =>
          match decEqJValList xs ys with
          | isFalse h => isFalse (fun e => h (List.cons.inj e).2)
          | isTrue h2 => isTrue (by rw [h1, h2])

/-- Decidable equality on field lists. -/
def decEqJValFields : (a b : List (String × JVal)) → Decidable (a = b)
  | [], [] => isTrue rfl
  | [], _ :: _ => isFalse nofun
  | _ :: _, [] => isFalse nofun
  | (k1, v1) :: xs, (k2, v2) :: ys =>
      if hk : k1 = k2 then
        match decEqJVal v1 v2 with
        | isFalse h => isFalse (fun e => h (Prod.mk.inj (List.cons.inj e).1).2)
        | isTrue hv =>
            match decEqJValFields xs ys with
            | isFalse h => isFalse (fun e => h (List.cons.inj e).2)
            | isTrue ht => isTrue (by rw [hk, hv, ht])
      else isFalse (fun e => hk (Prod.mk.inj (List.cons.inj e).1).1)

end

instance : DecidableEq JVal := decEqJVal

/-- The field list of a Python dict (a JSON object). -/
abbrev Fields := List (String × JVal)

/-- Python dict assignment `d[k] = v`: replace the value at the first
occurrence of `k`, or append `(k, v)` when `k` is absent (Python dicts
keep insertion order and update in place). -/
def setKey : Fields → String → JVal → Fields
  | [], k, v => [(k, v)]
  | (k1, v1) :: rest, k, v =>
      if k1 = k then (k, v) :: rest else (k1, v1) :: setKey rest k v

/-- Python's `s.split(sep)` for a one-character separator (the normalizer
only splits on `"/"`): splitting the empty string gives `[""]`. -/
def splitOnChar (sep : Char) : List Char → List (List Char)
  | [] => [[]]
  | c :: rest =>
      let r := splitOnChar sep rest
      if c = sep then [] :: r
      else
        match r with
        | [] => [[c]]
        | h :: t => (c :: h) :: t

/-- Python's `s.lower()` restricted to ASCII letters (the only characters
the repository's kind names and language hints contain). -/
def strLower (s : String) : String :=
  String.mk (s.data.map Char.toLower)

/-- Substring test on character lists (Python's `needle in haystack` for
strings). -/
def listContainsSub (needle : List Char) : List Char → Bool
  | [] => needle.isPrefixOf []
  | c :: rest => needle.isPrefixOf (c :: rest) || listContainsSub needle rest

/-- Python's `needle in hay` for strings: substring containment. -/
def strContains (hay needle : String) : Bool :=
  listContainsSub needle.data hay.data

/-- Python's `s.endswith(t)`. -/
def strEndsWith (s t : String) : Bool :=
  t.data.reverse.isPrefixOf s.data.reverse

/-- Worker for `stripTrailingIndex`, examining the reversed character
list of `s`. -/
def stripRev (s : String) : List Char → String
  | c :: rest =>
      if c = ']' then
        match rest.dropWhile (fun c2 => c2.isDigit) with
        | c1 :: pre =>
            if c1 = '[' then
              if (rest.takeWhile (fun c2 => c2.isDigit)).isEmpty then s
              else String.mk pre.reverse
            else s
        | [] => s
      else s
  | [] => s

/-- `re.sub` of the pattern `\[\d+\]$` with the empty string: strip one
trailing `[<digits>]` group (at least one ASCII digit) from the end of
`s`; a string that does not end in such a group is returned unchanged. -/
def stripTrailingIndex (s : String) : String :=
  stripRev s s.data.reverse

/-- Step 1 of `transform_symbol_result`, name derivation from `name_path`:
`item["name_path"].split("/")[-1]`, then, under the guard
`"[" in last_part and last_part.endswith("]")`, the trailing `[<digits>]`
group is stripped. -/
def pyNameCleanup (lastPart : String) : String :=
  if strContains lastPart "[" && strEndsWith lastPart "]" then
    stripTrailingIndex lastPart
  else lastPart

/-- The derived `name` of step 1: last `/`-segment of the `name_path`,
cleaned up by `pyNameCleanup`. -/
def deriveName (namePath : String) : String :=
  pyNameCleanup (String.mk ((splitOnChar '/' namePath.data).getLastD []))

/-- `get_symbol_kind_name` (main.py lines 17–27): the fixed LSP SymbolKind
table, `str(kind_id)` for a code outside it. -/
def get_symbol_kind_name (k : Int) : String :=
  if k = 1 then "File" else if k = 2 then "Module"
  else if k = 3 then "Namespace" else if k = 4 then "Package"
  else if k = 5 then "Class" else if k = 6 then "Method"
  else if k = 7 then "Property" else if k = 8 then "Field"
  else if k = 9 then "Constructor" else if k = 10 then "Enum"
  else if k = 11 then "Interface" else if k = 12 then "Function"
  else if k = 13 then "Variable" else if k = 14 then "Constant"
  else if k = 15 then "String" else if k = 16 then "Number"
  else if k = 17 then "Boolean" else if k = 18 then "Array"
  else if k = 19 then "Object" else if k = 20 then "Key"
  else if k = 21 then "Null" else if k = 22 then "EnumMember"
  else if k = 23 then "Struct" else if k = 24 then "Event"
  else if k = 25 then "Operator" else if k = 26 then "TypeParameter"
  else toString k

/-- Index of the last occurrence of `c` in `cs` (Python `str.rfind`,
with `none` for the `-1` case). -/
def lastIndexOf (cs : List Char) (c : Char) : Option Nat :=
  cs.enum.foldl (fun acc p => if p.2 = c then some p.1 else acc) none

/-- Whether some character of `cs` at an index in `[lo, hi)` differs from
`'.'` (the leading-dot check of `posixpath.splitext`). -/
def hasNonDot (cs : List Char) (lo hi : Nat) : Bool :=
  ((cs.drop lo).take (hi - lo)).any (fun c => c ≠ '.')

/-- The extension component of `os.path.splitext` (POSIX flavour): the
suffix from the last `'.'` of the final path component, empty when that
dot is missing, lies before the last `'/'`, or only dots precede it within
the component. -/
def splitextExt (p : String) : String :=
  let cs := p.data
  match lastIndexOf cs '.' with
  | none => ""
  | some dot =>
      let sep : Int := match lastIndexOf cs '/' with
        | none => -1
        | some i => (i : Int)
      if sep < (dot : Int) then
        if hasNonDot cs (sep + 1).toNat dot then String.mk (cs.drop dot) else ""
      else ""

/-- Python's `"line" in v` for the `start`/`end` members of a raw range:
key membership for a dict, substring test for a string, element membership
for a list; `none` models the `TypeError` raised for other types. -/
def containsLine : JVal → Option Bool
  | .vobj fs => some (List.lookup "line" fs).isSome
  | .vstr s => some (strContains s "line")
  | .vlist xs => some (xs.contains (.vstr "line"))
  | _ => none

/-- Python's `v["line"]` on a raw range member: dict indexing succeeds,
every other type raises `TypeError` (`none`). -/
def getLineVal : JVal → Option JVal
  | .vobj fs => List.lookup "line" fs
  | _ => none

/-- `transform_symbol_result`, step 1 (main.py lines 31–37): if `name` is
absent and `name_path` present, derive `name`; a non-string `name_path`
raises (`.split` on a non-string). -/
def step1 (fs : Fields) : Option Fields :=
  match List.lookup "name" fs with
  | some _ => some fs
  | none =>
      match List.lookup "name_path" fs with
      | none => some fs
      | some (.vstr s) => some (setKey fs "name" (.vstr (deriveName s)))
      | some _ => none

/-- `transform_symbol_result`, step 2 (main.py lines 39–41): an integer
`kind` is replaced by the lower-cased table name.  Python's
`isinstance(x, int)` also accepts booleans: `kinds.get(True)` hits key `1`
(`True == 1`), giving `"file"`, while `kinds.get(False)` misses and falls
back to `str(False).lower() = "false"`. -/
def step2 (fs : Fields) : Fields :=
  match List.lookup "kind" fs with
  | some (.vint k) => setKey fs "kind" (.vstr (strLower (get_symbol_kind_name k)))
  | some (.vbool true) => setKey fs "kind" (.vstr "file")
  | some (.vbool false) => setKey fs "kind" (.vstr "false")
  | _ => fs

/-- The then-branch of step 3 (main.py lines 45–53), for a dict `range`
with field list `r`: `start`/`end` default to `{}`, the guard
`"line" in start and "line" in end` short-circuits, and on success the
range is replaced by `{start_line, end_line}`. -/
def rangeFromStartEnd (fs : Fields) (r : Fields) : Option Fields :=
  match containsLine ((List.lookup "start" r).getD (.vobj [])) with
  | none => none
  | some false => some fs
  | some true =>
      match containsLine ((List.lookup "end" r).getD (.vobj [])) with
      | none => none
      | some false => some fs
      | some true =>
          match getLineVal ((List.lookup "start" r).getD (.vobj [])),
              getLineVal ((List.lookup "end" r).getD (.vobj [])) with
          | some sl, some el =>
              some (setKey fs "range" (.vobj [("start_line", sl), ("end_line", el)]))
          | _, _ => none

/-- The elif-branch of step 3 (main.py lines 54–55): a dict
`body_location` is installed verbatim as the range; anything else leaves
the record unchanged. -/
def bodyLocationFallback (fs : Fields) : Fields :=
  match List.lookup "body_location" fs with
  | some (.vobj b) => setKey fs "range" (.vobj b)
  | _ => fs

/-- `transform_symbol_result`, step 3 (main.py lines 43–55): when `range`
is a dict, only the `start`/`end` reconciliation runs; the `body_location`
fallback runs only when the `range` key is absent or not a dict. -/
def step3 (fs : Fields) : Option Fields :=
  match List.lookup "range" fs with
  | some (.vobj r) => rangeFromStartEnd fs r
  | some _ => some (bodyLocationFallback fs)
  | none => some (bodyLocationFallback fs)

/-- `transform_symbol_result`, step 4 (main.py lines 57–59): copy
`relative_path` to `file` when present. -/
def step4 (fs : Fields) : Fields :=
  match List.lookup "relative_path" fs with
  | some v => setKey fs "file" v
  | none => fs

/-- `transform_symbol_result`, step 5 (main.py lines 61–67): infer
`language` from the extension of `file` when `language` is absent;
`os.path.splitext` on a non-string raises (`none`).  The extension
dispatch (the four-entry table) is `inferLanguage`. -/
def inferLanguage (fs : Fields) (s : String) : Fields :=
  if splitextExt s = ".py" then setKey fs "language" (.vstr "python")
  else if splitextExt s = ".ts" then setKey fs "language" (.vstr "typescript")
  else if splitextExt s = ".js" then setKey fs "language" (.vstr "javascript")
  else if splitextExt s = ".java" then setKey fs "language" (.vstr "java")
  else fs

def step5 (fs : Fields) : Option Fields :=
  match List.lookup "language" fs with
  | some _ => some fs
  | none =>
      match List.lookup "file" fs with
      | none => some fs
      | some (.vstr s) => some (inferLanguage fs s)
      | some _ => none

/-- `transform_symbol_result` (main.py lines 29–69) on a dict record:
the five steps in source order; `none` models a raised exception. -/
def transform_symbol_result (fs : Fields) : Option Fields :=
  (step1 fs).bind fun a => (step3 (step2 a)).bind fun c => step5 (step4 c)

/-- `transform_symbol_result` on an arbitrary decoded JSON value, as the
pipeline applies it to every collected item (main.py line 170).  For a
string, Python's `in` is the substring test and any subscript raises
`TypeError`; the step-1 guard can fire only if `"name_path"` is a substring
while `"name"` is not, which is impossible, so strings fail exactly when a
later guard's substring test forces a subscript.  For a list, `in` is
element membership and subscripting by a string raises.  For `null`,
booleans and integers the very first `"name" not in item` raises. -/
def transformVal : JVal → Option JVal
  | .vobj fs => (transform_symbol_result fs).map .vobj
  | .vstr s =>
      if !strContains s "name" && strContains s "name_path" then none
      else if strContains s "kind" then none
      else if strContains s "range" then none
      else if strContains s "body_location" then none
      else if strContains s "relative_path" then none
      else if !strContains s "language" && strContains s "file" then none
      else some (.vstr s)
  | .vlist xs =>
      if !xs.contains (.vstr "name") && xs.contains (.vstr "name_path") then none
      else if xs.contains (.vstr "kind") then none
      else if xs.contains (.vstr "range") then none
      else if xs.contains (.vstr "body_location") then none
      else if xs.contains (.vstr "relative_path") then none
      else if !xs.contains (.vstr "language") && xs.contains (.vstr "file") then none
      else some (.vlist xs)
  | _ => none

/-- One content block of a tool response (`mcp.types`): a `TextContent`
carries its raw text and the result of the external `json.loads` on it
(`none` when that raises `JSONDecodeError`); other block types are skipped
by the `isinstance(content, TextContent)` guard. -/
inductive Block where
  | textContent (text : String) (parsed : Option JVal)
  | otherContent
deriving Repr, DecidableEq

/-- A `CallToolResult`: the `isError` flag and the content blocks. -/
structure ToolResponse where
  isError : Bool
  content : List Block
deriving Repr, DecidableEq

/-- The content-parsing loop (main.py lines 156–167): decoded lists are
spliced, decoded dicts appended, other decoded values dropped silently,
and a block whose text fails to parse contributes a stderr warning and is
skipped.  Returns (collected records, warnings). -/
def collectContent : List Block → List JVal × List String
  | [] => ([], [])
  | .textContent _ (some (.vlist xs)) :: rest =>
      let r := collectContent rest
      (xs ++ r.1, r.2)
  | .textContent _ (some (.vobj fs)) :: rest =>
      let r := collectContent rest
      (.vobj fs :: r.1, r.2)
  | .textContent _ (some _) :: rest => collectContent rest
  | .textContent t none :: rest =>
      let r := collectContent rest
      (r.1, ("Warning: Non-JSON response received: " ++ t) :: r.2)
  | .otherContent :: rest => collectContent rest

/-- `item.get("language", "").lower()` (main.py line 177): the empty
string for a missing key, lower-casing of a string value; a non-dict item
or a non-string value raises (`none`). -/
def langKey : JVal → Option String
  | .vobj fs =>
      match List.lookup "language" fs with
      | none => some ""
      | some (.vstr s) => some (strLower s)
      | some _ => none
  | _ => none

/-- The language filter comprehension (main.py lines 175–178): keep the
items whose `langKey` equals the lowered target; an item on which
`langKey` raises aborts the whole invocation. -/
def filterLang (target : String) : List JVal → Option (List JVal)
  | [] => some []
  | x :: xs =>
      match langKey x with
      | none => none
      | some l =>
          (filterLang target xs).map fun r => if l = target then x :: r else r

/-- Python's `xs[:n]`: for `0 ≤ n` the first `n` items, for negative `n`
all but the last `-n` items (stop index `len(xs) + n`, clamped at 0). -/
def pySliceTake (n : Int) (xs : List JVal) : List JVal :=
  if 0 ≤ n then xs.take n.toNat else xs.take ((xs.length : Int) + n).toNat

/-- The limit step (main.py lines 180–182): `if args.limit:` is Python
truthiness, so an absent limit and a limit of `0` both leave the list
untouched; any other limit slices. -/
def applyLimit (limit : Option Int) (xs : List JVal) : List JVal :=
  match limit with
  | none => xs
  | some n => if n = 0 then xs else pySliceTake n xs

/-- The find-symbol record pipeline after content collection
(main.py lines 170–182): normalize every item, then filter by language
(`if args.language:` is truthiness, so an empty hint disables the filter),
then limit. -/
def processRecords (language : Option String) (limit : Option Int)
    (raw : List JVal) : Option (List JVal) :=
  (raw.mapM transformVal).bind fun norm =>
    (match language with
     | none => some norm
     | some lang =>
         if lang = "" then some norm else filterLang (strLower lang) norm).map
      fun filtered => applyLimit limit filtered

/-- Left-align to width `w` with spaces (Python's format spec `<w`). -/
def padRight (s : String) (w : Nat) : String :=
  s ++ String.mk (List.replicate (w - s.data.length) ' ')

mutual

/-- Python's `repr` on a decoded JSON value, as `str` falls back to it for
containers inside the f-string (string escaping approximated by plain
quoting; no theorem depends on it). -/
def pyRepr : JVal → String
  | .vnull => "None"
  | .vbool true => "True"
  | .vbool false => "False"
  | .vint n => toString n
  | .vstr s => "\x27" ++ s ++ "\x27"
  | .vlist xs => "[" ++ pyReprList xs ++ "]"
  | .vobj fs => "\x7b" ++ pyReprFields fs ++ "\x7d"

/-- Comma-joined `repr`s of list elements. -/
def pyReprList : List JVal → String
  | [] => ""
  | [x] => pyRepr x
  | x :: y :: rest => pyRepr x ++ ", " ++ pyReprList (y :: rest)

/-- Comma-joined `repr`s of dict entries. -/
def pyReprFields : List (String × JVal) → String
  | [] => ""
  | [(k, v)] => "\x27" ++ k ++ "\x27: " ++ pyRepr v
  | (k, v) :: e :: rest =>
      "\x27" ++ k ++ "\x27: " ++ pyRepr v ++ ", " ++ pyReprFields (e :: rest)

end

/-- Python's `str` on a decoded JSON value (f-string interpolation with an
empty format spec). -/
def pyStr : JVal → String
  | .vstr s => s
  | v => pyRepr v

/-- Python's `format(v, "<w")`: strings and ints pad; a bool formats as
its int value; `None`, lists and dicts raise `TypeError` for a non-empty
format spec. -/
def padFormat : JVal → Nat → Option String
  | .vstr s, w => some (padRight s w)
  | .vint n, w => some (padRight (toString n) w)
  | .vbool b, w => some (padRight (if b then "1" else "0") w)
  | _, _ => none

/-- One find-symbol text line (main.py lines 193–198):
`f"{name:<30} {kind:<15} {file}:{start_line}"` with `"?"` defaults;
`item.get` on a non-dict item and `.get` on a non-dict `range` raise. -/
def formatSymbolLine : JVal → Option String
  | .vobj fs =>
      let name := (List.lookup "name" fs).getD (.vstr "?")
      let kind := (List.lookup "kind" fs).getD (.vstr "?")
      let file := (List.lookup "file" fs).getD (.vstr "?")
      let sl? : Option JVal :=
        match List.lookup "range" fs with
        | none => some (.vstr "?")
        | some (.vobj r) => some ((List.lookup "start_line" r).getD (.vstr "?"))
        | some _ => none
      match sl? with
      | none => none
      | some sl =>
          match padFormat name 30, padFormat kind 15 with
          | some ns, some ks =>
              some (ns ++ " " ++ ks ++ " " ++ pyStr file ++ ":" ++ pyStr sl)
          | _, _ => none
  | _ => none

/-- The `--format` choice. -/
inductive OutputFormat where
  | text
  | json
deriving Repr, DecidableEq

/-- What an invocation prints on stdout: the text lines, or the JSON value
passed to `json.dumps`. -/
inductive Output where
  | textLines (lines : List String)
  | jsonVal (v : JVal)
deriving Repr, DecidableEq

/-- The find-symbol output step (main.py lines 184–198): JSON mode wraps
the records in `{"results": ...}`; text mode prints the literal
`"No symbols found."` for an empty list and one formatted line per
record. -/
def renderFindSymbol (fmt : OutputFormat) (recs : List JVal) : Option Output :=
  match fmt with
  | .json => some (.jsonVal (.vobj [("results", .vlist recs)]))
  | .text =>
      (recs.mapM formatSymbolLine).map fun ls =>
        .textLines (if recs.isEmpty then "No symbols found." :: ls else ls)

/-- How the CLI exits non-zero (main.py lines 149–154 and 220–222): a
tool-reported error prints the text blocks to stderr; any raised exception
is caught by the outer handler. -/
inductive CliError where
  | toolError (msgs : List String)
  | exception
deriving Repr, DecidableEq

/-- The texts printed to stderr for an error response
(main.py lines 151–153). -/
def errTexts (blocks : List Block) : List String :=
  blocks.filterMap fun b =>
    match b with
    | .textContent t _ => some t
    | .otherContent => none

/-- The tool name the find-symbol subcommand calls (main.py line 134). -/
def find_symbol_tool_name : String := "find_symbol"

/-- The tool-call arguments the find-symbol subcommand sends
(main.py line 135): only the `name_path_pattern`; the `--language` hint is
deliberately not forwarded (`# Ignoring --language`). -/
def find_symbol_tool_args (name : String) : Fields :=
  [("name_path_pattern", .vstr name)]

/-- A find-symbol invocation from the tool response on (main.py lines
149–198): the error path, content collection with warnings, the record
pipeline, and rendering.  Returns the output and the stderr warnings, or
the kind of non-zero exit. -/
def runFindSymbol (fmt : OutputFormat) (language : Option String)
    (limit : Option Int) (resp : ToolResponse) :
    Except CliError (Output × List String) :=
  if resp.isError then .error (.toolError (errTexts resp.content))
  else
    let collected := collectContent resp.content
    match processRecords language limit collected.1 with
    | none => .error .exception
    | some finalRecs =>
        match renderFindSymbol fmt finalRecs with
        | none => .error .exception
        | some out => .ok (out, collected.2)

/-- A Serena project handle, opaque to the client (only its truthiness is
used by `get_status`). -/
structure SerenaProject where
  projectName : String
deriving Repr, DecidableEq

/-- The environment `SerenaClient.get_status` runs against: whether the
`serena` import succeeded (`SERENA_AVAILABLE`), whether `ensure_agent`
raises, and what `serena_config.get_project` does — raise, return `None`,
or return a project. -/
structure StatusEnv where
  serenaAvailable : Bool
  ensureAgentRaises : Bool
  getProject : Except Unit (Option SerenaProject)
deriving Repr

/-- `SerenaClient.get_status` (serena_client.py lines 93–111): start from
the default status dict, and only when Serena is importable, the agent
constructs, and the project lookup returns a truthy project, flip
`project_detected` and `index_state`; every exception is swallowed by the
bare `except`. -/
def get_status (env : StatusEnv) : Fields :=
  let status : Fields :=
    [("serena_available", .vbool env.serenaAvailable),
     ("project_detected", .vbool false),
     ("index_state", .vstr "unknown")]
  if env.serenaAvailable then
    if env.ensureAgentRaises then status
    else
      match env.getProject with
      | .error _ => status
      | .ok none => status
      | .ok (some _) =>
          setKey (setKey status "project_detected" (.vbool true))
            "index_state" (.vstr "configured")
  else status

/-- Whether a value fails Python's `isinstance(v, int)` (which booleans
pass, `bool` being a subclass of `int`). -/
def isPyNonInt : JVal → Bool
  | .vint _ => false
  | .vbool _ => false
  | _ => true

/-- The 26-entry symbol-kind table as the specification lists it, index
`i` holding the name of kind code `i + 1`. -/
def specSymbolKindNames : List String :=
  ["File", "Module", "Namespace", "Package", "Class", "Method", "Property",
   "Field", "Constructor", "Enum", "Interface", "Function", "Variable",
   "Constant", "String", "Number", "Boolean", "Array", "Object", "Key",
   "Null", "EnumMember", "Struct", "Event", "Operator", "TypeParameter"]

/-- The derived name as the specification words it: the last `/`-segment
of the `name_path` with a trailing `[<digits>]` suffix removed when
present (no guard; `stripTrailingIndex` is the identity when the suffix is
absent). -/
def specDerivedName (namePath : String) : String :=
  stripTrailingIndex (String.mk ((splitOnChar '/' namePath.data).getLastD []))

/-! ## Lookup and assignment lemmas -/

theorem lookup_cons_self (k : String) (v : JVal) (fs : Fields) :
    List.lookup k ((k, v) :: fs) = some v := by
  simp [List.lookup]

theorem lookup_cons_ne {k k1 : String} (h : k ≠ k1) (v : JVal) (fs : Fields) :
    List.lookup k ((k1, v) :: fs) = List.lookup k fs := by
  simp only [List.lookup]
  rw [show (k == k1) = false from beq_eq_false_iff_ne.mpr h]

theorem lookup_setKey_self (fs : Fields) (k : String) (v : JVal) :
    List.lookup k (setKey fs k v) = some v := by
  induction fs with
  | nil => exact lookup_cons_self k v []
  | cons p rest ih =>
      obtain ⟨k1, v1⟩ := p
      by_cases h : k1 = k
      · subst h
        show List.lookup k1 (if k1 = k1 then (k1, v) :: rest else _) = some v
        rw [if_pos rfl, lookup_cons_self]
      · show List.lookup k (if k1 = k then _ else (k1, v1) :: setKey rest k v) = some v
        rw [if_neg h, lookup_cons_ne (fun e => h e.symm), ih]

theorem lookup_setKey_ne {k' k : String} (h : k' ≠ k) (fs : Fields) (v : JVal) :
    List.lookup k' (setKey fs k v) = List.lookup k' fs := by
  induction fs with
  | nil => exact lookup_cons_ne h v []
  | cons p rest ih =>
      obtain ⟨k1, v1⟩ := p
      by_cases hk : k1 = k
      · subst hk
        show List.lookup k' (if k1 = k1 then (k1, v) :: rest else _) = _
        rw [if_pos rfl, lookup_cons_ne h, lookup_cons_ne h]
      · show List.lookup k' (if k1 = k then _ else (k1, v1) :: setKey rest k v) = _
        rw [if_neg hk]
        by_cases h1 : k' = k1
        · subst h1
          rw [lookup_cons_self, lookup_cons_self]
        · rw [lookup_cons_ne h1, lookup_cons_ne h1, ih]

theorem setKey_id {fs : Fields} {k : String} {v : JVal}
    (h : List.lookup k fs = some v) : setKey fs k v = fs := by
  induction fs with
  | nil => simp [List.lookup] at h
  | cons p rest ih =>
      obtain ⟨k1, v1⟩ := p
      by_cases hk : k1 = k
      · subst hk
        rw [lookup_cons_self, Option.some_inj] at h
        show (if k1 = k1 then (k1, v) :: rest else _) = _
        rw [if_pos rfl, h]
      · rw [lookup_cons_ne (fun e => hk e.symm)] at h
        show (if k1 = k then _ else (k1, v1) :: setKey rest k v) = _
        rw [if_neg hk, ih h]

/-! ## Which keys each step writes -/

theorem step1_lookup {fs g : Fields} (h : step1 fs = some g)
    {k : String} (hk : k ≠ "name") :
    List.lookup k g = List.lookup k fs := by
  unfold step1 at h
  repeat' split at h
  all_goals cases h
  all_goals first | rfl | rw [lookup_setKey_ne hk]

theorem step2_lookup (fs : Fields) {k : String} (hk : k ≠ "kind") :
    List.lookup k (step2 fs) = List.lookup k fs := by
  unfold step2
  repeat' split
  all_goals first | rfl | rw [lookup_setKey_ne hk]

theorem step3_lookup {fs g : Fields} (h : step3 fs = some g)
    {k : String} (hk : k ≠ "range") :
    List.lookup k g = List.lookup k fs := by
  unfold step3 rangeFromStartEnd bodyLocationFallback at h
  repeat' split at h
  all_goals cases h
  all_goals first | rfl | rw [lookup_setKey_ne hk]

theorem step4_lookup (fs : Fields) {k : String} (hk : k ≠ "file") :
    List.lookup k (step4 fs) = List.lookup k fs := by
  unfold step4
  cases hr : List.lookup "relative_path" fs with
  | none => rfl
  | some v => rw [lookup_setKey_ne hk]

theorem inferLanguage_lookup (fs : Fields) (s : String) {k : String}
    (hk : k ≠ "language") :
    List.lookup k (inferLanguage fs s) = List.lookup k fs := by
  unfold inferLanguage
  repeat' split
  all_goals first | rfl | rw [lookup_setKey_ne hk]

theorem step5_lookup {fs g : Fields} (h : step5 fs = some g)
    {k : String} (hk : k ≠ "language") :
    List.lookup k g = List.lookup k fs := by
  unfold step5 at h
  repeat' split at h
  all_goals cases h
  all_goals first | rfl | rw [inferLanguage_lookup fs _ hk]

/-- Decomposing a successful normalization into its five steps. -/
theorem transform_eq_some {fs out : Fields} :
    transform_symbol_result fs = some out ↔
      ∃ a c, step1 fs = some a ∧ step3 (step2 a) = some c ∧
        step5 (step4 c) = some out := by
  simp [transform_symbol_result, Option.bind_eq_some]

/-- Keys other than `kind`, `range`, `file`, `language` look up in the
final record as they did after step 1. -/
theorem post1_lookup {a c out : Fields} (h3 : step3 (step2 a) = some c)
    (h5 : step5 (step4 c) = some out) {k : String} (hk2 : k ≠ "kind")
    (hk3 : k ≠ "range") (hk4 : k ≠ "file") (hk5 : k ≠ "language") :
    List.lookup k out = List.lookup k a := by
  rw [step5_lookup h5 hk5, step4_lookup c hk4, step3_lookup h3 hk3,
    step2_lookup a hk2]

/-- Keys other than `range`, `file`, `language` look up in the final
record as they did after step 2. -/
theorem post2_lookup {b c out : Fields} (h3 : step3 b = some c)
    (h5 : step5 (step4 c) = some out) {k : String}
    (hk3 : k ≠ "range") (hk4 : k ≠ "file") (hk5 : k ≠ "language") :
    List.lookup k out = List.lookup k b := by
  rw [step5_lookup h5 hk5, step4_lookup c hk4, step3_lookup h3 hk3]

/-- Keys other than `file`, `language` look up in the final record as
they did after step 3. -/
theorem post3_lookup {c out : Fields} (h5 : step5 (step4 c) = some out)
    {k : String} (hk4 : k ≠ "file") (hk5 : k ≠ "language") :
    List.lookup k out = List.lookup k c := by
  rw [step5_lookup h5 hk5, step4_lookup c hk4]

/-! ## Stability lemmas: when a step returns its input unchanged -/

/-- A record with `name` present, or with neither `name` nor `name_path`,
passes step 1 unchanged. -/
theorem step1_self {fs : Fields}
    (h : (∃ v, List.lookup "name" fs = some v) ∨
      (List.lookup "name" fs = none ∧ List.lookup "name_path" fs = none)) :
    step1 fs = some fs := by
  unfold step1
  rcases h with ⟨v, hv⟩ | ⟨h1, h2⟩
  · rw [hv]
  · rw [h1, h2]

/-- A record whose `kind`, if present, is not a Python `int` passes step 2
unchanged. -/
theorem step2_self {fs : Fields}
    (h : ∀ v, List.lookup "kind" fs = some v → isPyNonInt v = true) :
    step2 fs = fs := by
  unfold step2
  cases hv : List.lookup "kind" fs with
  | none => rfl
  | some v =>
      have hni := h v hv
      cases v with
      | vint n => simp [isPyNonInt] at hni
      | vbool b => simp [isPyNonInt] at hni
      | vnull => rfl
      | vstr s => rfl
      | vlist xs => rfl
      | vobj f2 => rfl

/-- After step 2, the `kind` value is never a Python `int`. -/
theorem step2_kind_nonint {a : Fields} {v : JVal}
    (h : List.lookup "kind" (step2 a) = some v) : isPyNonInt v = true := by
  unfold step2 at h
  cases hk : List.lookup "kind" a with
  | none => rw [hk] at h; rw [hk] at h; cases h
  | some w =>
      rw [hk] at h
      cases w with
      | vint n => rw [lookup_setKey_self] at h; cases h; rfl
      | vbool b =>
          cases b <;> (rw [lookup_setKey_self] at h; cases h; rfl)
      | vnull => rw [hk] at h; cases h; rfl
      | vstr s => rw [hk] at h; cases h; rfl
      | vlist xs => rw [hk] at h; cases h; rfl
      | vobj f2 => rw [hk] at h; cases h; rfl

/-- A record whose `range` is a dict with no `start` member passes step 3
unchanged (`{}.get` defaults make the line guard fail). -/
theorem step3_self_of_range_noStart {fs r : Fields}
    (h : List.lookup "range" fs = some (.vobj r))
    (hs : List.lookup "start" r = none) :
    step3 fs = some fs := by
  have e1 : step3 fs = rangeFromStartEnd fs r := by
    unfold step3
    rw [h]
  rw [e1]
  unfold rangeFromStartEnd
  rw [hs]
  rfl

/-- A record whose `range` is a dict on which the
`"line" in start and "line" in end` guard fails (without raising) passes
step 3 unchanged, whatever `body_location` it carries. -/
theorem step3_self_of_guardFail {fs r : Fields}
    (h : List.lookup "range" fs = some (.vobj r))
    (hg : containsLine ((List.lookup "start" r).getD (.vobj [])) = some false
      ∨ (containsLine ((List.lookup "start" r).getD (.vobj [])) = some true
        ∧ containsLine ((List.lookup "end" r).getD (.vobj [])) = some false)) :
    step3 fs = some fs := by
  have e1 : step3 fs = rangeFromStartEnd fs r := by
    unfold step3
    rw [h]
  rw [e1]
  unfold rangeFromStartEnd
  rcases hg with h1 | ⟨h1, h2⟩
  · rw [h1]
  · rw [h1, h2]

/-- A record with no `range` key and no dict `body_location` passes
step 3 unchanged. -/
theorem step3_self_of_noRange {fs : Fields}
    (h : List.lookup "range" fs = none)
    (hb : ∀ bb, List.lookup "body_location" fs ≠ some (.vobj bb)) :
    step3 fs = some fs := by
  unfold step3
  rw [h]
  unfold bodyLocationFallback
  cases hbl : List.lookup "body_location" fs with
  | none => rfl
  | some b =>
      cases b with
      | vobj bb => exact absurd hbl (hb bb)
      | vnull => rfl
      | vbool x => rfl
      | vint x => rfl
      | vstr x => rfl
      | vlist x => rfl

/-- When the reconciliation branch of step 3 ran, the result always has a
`range` key. -/
theorem rangeFromStartEnd_some {b r c : Fields}
    (hrb : List.lookup "range" b = some (.vobj r))
    (h : rangeFromStartEnd b r = some c) :
    ∃ v, List.lookup "range" c = some v := by
  unfold rangeFromStartEnd at h
  repeat' split at h
  all_goals cases h
  all_goals first
    | exact ⟨_, hrb⟩
    | exact ⟨_, lookup_setKey_self _ _ _⟩

/-- If step 3 produced a record with no `range` key, the input's
`body_location` was not a dict. -/
theorem step3_range_none {b c : Fields} (h : step3 b = some c)
    (hc : List.lookup "range" c = none) :
    ∀ bb, List.lookup "body_location" b ≠ some (.vobj bb) := by
  intro bb hbb
  unfold step3 at h
  cases hrb : List.lookup "range" b with
  | some w =>
      rw [hrb] at h
      cases w with
      | vobj r =>
          obtain ⟨v, hv⟩ := rangeFromStartEnd_some hrb h
          rw [hv] at hc
          cases hc
      | vnull =>
          cases h
          unfold bodyLocationFallback at hc
          rw [hbb, lookup_setKey_self] at hc
          cases hc
      | vbool x =>
          cases h
          unfold bodyLocationFallback at hc
          rw [hbb, lookup_setKey_self] at hc
          cases hc
      | vint x =>
          cases h
          unfold bodyLocationFallback at hc
          rw [hbb, lookup_setKey_self] at hc
          cases hc
      | vstr x =>
          cases h
          unfold bodyLocationFallback at hc
          rw [hbb, lookup_setKey_self] at hc
          cases hc
      | vlist x =>
          cases h
          unfold bodyLocationFallback at hc
          rw [hbb, lookup_setKey_self] at hc
          cases hc
  | none =>
      rw [hrb] at h
      cases h
      unfold bodyLocationFallback at hc
      rw [hbb, lookup_setKey_self] at hc
      cases hc

/-- A record with no `relative_path` passes step 4 unchanged. -/
theorem step4_self_none {fs : Fields}
    (h : List.lookup "relative_path" fs = none) : step4 fs = fs := by
  unfold step4
  rw [h]

/-- A record whose `file` already equals its `relative_path` passes
step 4 unchanged. -/
theorem step4_self_same {fs : Fields} {v : JVal}
    (h : List.lookup "relative_path" fs = some v)
    (hf : List.lookup "file" fs = some v) : step4 fs = fs := by
  unfold step4
  rw [h]
  exact setKey_id hf

/-- Step 5 is idempotent on its successful results: re-running it on the
output changes nothing. -/
theorem step5_post {d out : Fields} (h : step5 d = some out) :
    step5 out = some out := by
  unfold step5 at h
  cases hl : List.lookup "language" d with
  | some v =>
      rw [hl] at h
      cases h
      unfold step5
      rw [hl]
  | none =>
      rw [hl] at h
      cases hf : List.lookup "file" d with
      | none =>
          rw [hf] at h
          cases h
          unfold step5
          rw [hl, hf]
      | some v =>
          rw [hf] at h
          cases v with
          | vstr s =>
              cases h
              unfold inferLanguage
              by_cases h1 : splitextExt s = ".py"
              · rw [if_pos h1]
                unfold step5
                rw [lookup_setKey_self]
              · rw [if_neg h1]
                by_cases h2 : splitextExt s = ".ts"
                · rw [if_pos h2]
                  unfold step5
                  rw [lookup_setKey_self]
                · rw [if_neg h2]
                  by_cases h3 : splitextExt s = ".js"
                  · rw [if_pos h3]
                    unfold step5
                    rw [lookup_setKey_self]
                  · rw [if_neg h3]
                    by_cases h4 : splitextExt s = ".java"
                    · rw [if_pos h4]
                      unfold step5
                      rw [lookup_setKey_self]
                    · rw [if_neg h4]
                      unfold step5
                      rw [hl, hf]
                      show some (inferLanguage d s) = some d
                      unfold inferLanguage
                      rw [if_neg h1, if_neg h2, if_neg h3, if_neg h4]
          | vnull => cases h
          | vbool b => cases h
          | vint n => cases h
          | vlist xs => cases h
          | vobj f2 => cases h

/-- Core idempotence result: re-normalizing a successful output changes
nothing, provided the output's `range` is absent or is a dict with no
`start` member.  (The excluded case is real: a `body_location` that is
itself an LSP-style `{start: {line}, end: {line}}` dict is installed
verbatim by the first pass and rewritten by the second.) -/
theorem transform_idempotent_core {fs out : Fields}
    (htr : transform_symbol_result fs = some out)
    (hrange : List.lookup "range" out = none ∨
      ∃ r, List.lookup "range" out = some (.vobj r) ∧
        List.lookup "start" r = none) :
    transform_symbol_result out = some out := by
  obtain ⟨a, c, h1, h3, h5⟩ := transform_eq_some.mp htr
  have hname : List.lookup "name" out = List.lookup "name" a :=
    post1_lookup h3 h5 (by decide) (by decide) (by decide) (by decide)
  have hnp : List.lookup "name_path" out = List.lookup "name_path" a :=
    post1_lookup h3 h5 (by decide) (by decide) (by decide) (by decide)
  have hs1 : step1 out = some out := by
    unfold step1 at h1
    cases hF : List.lookup "name" fs with
    | some v =>
        rw [hF] at h1
        cases h1
        exact step1_self (Or.inl ⟨v, by rw [hname]; exact hF⟩)
    | none =>
        rw [hF] at h1
        cases hP : List.lookup "name_path" fs with
        | none =>
            rw [hP] at h1
            cases h1
            refine step1_self (Or.inr ⟨?_, ?_⟩)
            · rw [hname]; exact hF
            · rw [hnp]; exact hP
        | some w =>
            rw [hP] at h1
            cases w with
            | vstr s =>
                cases h1
                refine step1_self (Or.inl ⟨.vstr (deriveName s), ?_⟩)
                rw [hname, lookup_setKey_self]
            | vnull => cases h1
            | vbool b => cases h1
            | vint n => cases h1
            | vlist xs => cases h1
            | vobj f2 => cases h1
  have hs2 : step2 out = out := by
    apply step2_self
    intro v hv
    have hkind : List.lookup "kind" out = List.lookup "kind" (step2 a) :=
      post2_lookup h3 h5 (by decide) (by decide) (by decide)
    rw [hkind] at hv
    exact step2_kind_nonint hv
  have hs3 : step3 out = some out := by
    rcases hrange with hnone | ⟨r, hr, hsr⟩
    · apply step3_self_of_noRange hnone
      intro bb hbb
      have hbl : List.lookup "body_location" out
          = List.lookup "body_location" (step2 a) :=
        post2_lookup h3 h5 (by decide) (by decide) (by decide)
      have hro : List.lookup "range" out = List.lookup "range" c :=
        post3_lookup h5 (by decide) (by decide)
      have hcr : List.lookup "range" c = none := by
        rw [← hro]; exact hnone
      exact step3_range_none h3 hcr bb (by rw [← hbl]; exact hbb)
    · exact step3_self_of_range_noStart hr hsr
  have hs4 : step4 out = out := by
    have hrp : List.lookup "relative_path" out
        = List.lookup "relative_path" c :=
      post3_lookup h5 (by decide) (by decide)
    cases hrpc : List.lookup "relative_path" c with
    | none =>
        apply step4_self_none
        rw [hrp]; exact hrpc
    | some v =>
        have hfd : List.lookup "file" (step4 c) = some v := by
          unfold step4
          rw [hrpc, lookup_setKey_self]
        apply step4_self_same (v := v)
        · rw [hrp]; exact hrpc
        · rw [step5_lookup h5 (by decide)]
          exact hfd
  have hs5 : step5 out = some out := step5_post h5
  refine transform_eq_some.mpr ⟨out, out, hs1, ?_, ?_⟩
  · rw [hs2]; exact hs3
  · rw [hs4]; exact hs5

/-! ## The re.sub guard in step 1 is semantically redundant -/

theorem listContainsSub_single_of_mem {c : Char} {cs : List Char}
    (h : c ∈ cs) : listContainsSub [c] cs = true := by
  induction cs with
  | nil => cases h
  | cons a rest ih =>
      rcases List.mem_cons.mp h with h1 | h1
      · subst h1
        simp [listContainsSub, List.isPrefixOf]
      · simp [listContainsSub, ih h1]

theorem stripTrailingIndex_of_not_endsWith {s : String}
    (h : strEndsWith s "]" = false) : stripTrailingIndex s = s := by
  unfold stripTrailingIndex
  cases hrev : s.data.reverse with
  | nil => rfl
  | cons c rest =>
      by_cases hc : c = ']'
      · exfalso
        subst hc
        unfold strEndsWith at h
        rw [hrev] at h
        simp [List.isPrefixOf] at h
      · simp only [stripRev]
        rw [if_neg hc]

theorem stripTrailingIndex_of_not_contains {s : String}
    (h : strContains s "[" = false) : stripTrailingIndex s = s := by
  unfold stripTrailingIndex
  cases hrev : s.data.reverse with
  | nil => rfl
  | cons c rest =>
      by_cases hc : c = ']'
      · simp only [stripRev]
        rw [if_pos hc]
        cases hdw : rest.dropWhile (fun c2 => c2.isDigit) with
        | nil => rfl
        | cons c1 pre =>
            by_cases h1 : c1 = '['
            · exfalso
              subst h1
              have hmem : '[' ∈ rest := by
                have hsub := List.dropWhile_sublist (fun c2 => c2.isDigit) (l := rest)
                exact hsub.subset (by rw [hdw]; exact List.mem_cons_self _ _)
              have hmem2 : '[' ∈ s.data := by
                rw [← List.mem_reverse, hrev]
                exact List.mem_cons_of_mem _ hmem
              unfold strContains at h
              rw [show ("[" : String).data = ['['] from rfl,
                listContainsSub_single_of_mem hmem2] at h
              cases h
            · simp [h1]
      · simp only [stripRev]
        rw [if_neg hc]

/-- The `"[" in last_part and last_part.endswith("]")` guard before the
`re.sub` call never changes the result: the cleanup equals the plain
suffix strip. -/
theorem pyNameCleanup_eq_strip (t : String) :
    pyNameCleanup t = stripTrailingIndex t := by
  unfold pyNameCleanup
  by_cases h1 : strContains t "[" = true
  · by_cases h2 : strEndsWith t "]" = true
    · rw [if_pos (by rw [h1, h2]; rfl)]
    · rw [Bool.not_eq_true] at h2
      rw [if_neg (by rw [h1, h2]; exact Bool.false_ne_true)]
      exact (stripTrailingIndex_of_not_endsWith h2).symm
  · rw [Bool.not_eq_true] at h1
    rw [if_neg (by rw [h1]; exact Bool.false_ne_true)]
    exact (stripTrailingIndex_of_not_contains h1).symm

/-- The derived name is exactly what the specification words say: the last
`/`-segment with a trailing `[<digits>]` suffix removed when present. -/
theorem deriveName_eq_spec (s : String) : deriveName s = specDerivedName s := by
  unfold deriveName specDerivedName
  rw [pyNameCleanup_eq_strip]

/-! ## Forward computation lemmas for step 3 -/

/-- Step 3's reconciliation branch when `start` and `end` are dicts that
both carry `line`. -/
theorem step3_lines {g r st en : Fields} {sl el : JVal}
    (hr : List.lookup "range" g = some (.vobj r))
    (hst : List.lookup "start" r = some (.vobj st))
    (hen : List.lookup "end" r = some (.vobj en))
    (hlst : List.lookup "line" st = some sl)
    (hlen : List.lookup "line" en = some el) :
    step3 g = some (setKey g "range"
      (.vobj [("start_line", sl), ("end_line", el)])) := by
  have e1 : step3 g = rangeFromStartEnd g r := by
    unfold step3
    rw [hr]
  rw [e1]
  unfold rangeFromStartEnd
  rw [hst, hen]
  simp only [Option.getD_some, containsLine, getLineVal]
  rw [hlst, hlen]
  simp only [Option.isSome_some]

/-- Step 3's fallback when the `range` key is absent. -/
theorem step3_bl_of_noRange {g b : Fields}
    (h : List.lookup "range" g = none)
    (hb : List.lookup "body_location" g = some (.vobj b)) :
    step3 g = some (setKey g "range" (.vobj b)) := by
  have e1 : step3 g = some (bodyLocationFallback g) := by
    unfold step3
    rw [h]
  rw [e1]
  unfold bodyLocationFallback
  rw [hb]

/-- Step 3's fallback when `range` is present but not a dict. -/
theorem step3_bl_of_nonDict {g b : Fields} {w : JVal}
    (h : List.lookup "range" g = some w) (hw : ∀ rr, w ≠ .vobj rr)
    (hb : List.lookup "body_location" g = some (.vobj b)) :
    step3 g = some (setKey g "range" (.vobj b)) := by
  have e1 : step3 g = some (bodyLocationFallback g) := by
    unfold step3
    rw [h]
    cases w with
    | vobj rr => exact absurd rfl (hw rr)
    | vnull => rfl
    | vbool x => rfl
    | vint x => rfl
    | vstr x => rfl
    | vlist x => rfl
  rw [e1]
  unfold bodyLocationFallback
  rw [hb]

/-! ## Claim theorems -/

/-- C1: for every raw record with a string `name_path` and no `name`, the
normalizer sets `name` to the last `/`-segment of `name_path` with a
trailing `[<digits>]` suffix removed (the guarded `re.sub` equals the
plain suffix strip, and `"MyClass/my_method[0]"` yields `"my_method"`); a
record that already contains `name` keeps it unchanged. -/
theorem name_derivation_c1 :
    (∀ (fs out : Fields) (s : String),
      List.lookup "name" fs = none →
      List.lookup "name_path" fs = some (.vstr s) →
      transform_symbol_result fs = some out →
      List.lookup "name" out = some (.vstr (deriveName s)))
    ∧ (∀ s : String, deriveName s = specDerivedName s)
    ∧ deriveName "MyClass/my_method[0]" = "my_method"
    ∧ (∀ (fs out : Fields) (v : JVal),
      List.lookup "name" fs = some v →
      transform_symbol_result fs = some out →
      List.lookup "name" out = some v) := by
  refine ⟨?_, deriveName_eq_spec, by decide, ?_⟩
  · intro fs out s hn hp htr
    obtain ⟨a, c, h1, h3, h5⟩ := transform_eq_some.mp htr
    have hname : List.lookup "name" out = List.lookup "name" a :=
      post1_lookup h3 h5 (by decide) (by decide) (by decide) (by decide)
    unfold step1 at h1
    rw [hn, hp] at h1
    cases h1
    rw [hname, lookup_setKey_self]
  · intro fs out v hv htr
    obtain ⟨a, c, h1, h3, h5⟩ := transform_eq_some.mp htr
    have hname : List.lookup "name" out = List.lookup "name" a :=
      post1_lookup h3 h5 (by decide) (by decide) (by decide) (by decide)
    unfold step1 at h1
    rw [hv] at h1
    cases h1
    rw [hname]
    exact hv

/-- Witness for C1 at the record `{"name_path": "MyClass/my_method[0]"}`,
whose normalization appends `name = "my_method"`. -/
theorem name_derivation_c1_witness :
    List.lookup "name"
      [("name_path", JVal.vstr "MyClass/my_method[0]"),
       ("name", JVal.vstr "my_method")]
      = some (.vstr (deriveName "MyClass/my_method[0]")) :=
  name_derivation_c1.1
    [("name_path", .vstr "MyClass/my_method[0]")]
    [("name_path", .vstr "MyClass/my_method[0]"), ("name", .vstr "my_method")]
    "MyClass/my_method[0]" (by decide) (by decide) (by decide)

/-- C2 counterexample: boolean kinds break the claim's trichotomy under
either reading.  Python's `isinstance(True, int)` holds and
`kinds.get(True)` hits key 1, so `{"kind": true}` becomes
`{"kind": "file"}` — the value is changed although JSON `true` is not an
integer; and `{"kind": false}` becomes `{"kind": "false"}` (from
`str(False).lower()`), not the decimal string `"0"` of the integer
`False == 0`. -/
theorem kind_mapping_c2_counterexample :
    transform_symbol_result [("kind", .vbool true)]
        = some [("kind", .vstr "file")]
    ∧ transform_symbol_result [("kind", .vbool false)]
        = some [("kind", .vstr "false")]
    ∧ (JVal.vstr "file" ≠ .vbool true)
    ∧ (JVal.vstr "false" ≠ .vstr "0") :=
  ⟨by decide, by decide, by decide, by decide⟩

/-- C2 (amended): an integer `kind` k becomes the lower-cased table entry
(`get_symbol_kind_name`, agreeing with the specification's 26 names for
1 ≤ k ≤ 26, in particular `6 ↦ "method"`) and the decimal string of k
outside [1, 26]; a `kind` failing Python's `isinstance(·, int)` — i.e.
neither an integer nor a boolean — is kept unchanged; a boolean `kind`
passes the `isinstance` check, `true` hitting table key 1 (`True == 1`)
and becoming `"file"`, `false` missing the table and becoming
`str(False).lower() = "false"`. -/
theorem kind_mapping_c2 :
    (∀ (fs out : Fields) (k : Int),
      List.lookup "kind" fs = some (.vint k) →
      transform_symbol_result fs = some out →
      List.lookup "kind" out
        = some (.vstr (strLower (get_symbol_kind_name k))))
    ∧ (∀ k : Int, 1 ≤ k → k ≤ 26 →
      get_symbol_kind_name k = specSymbolKindNames.getD (k.toNat - 1) "")
    ∧ (∀ k : Int, k < 1 ∨ 26 < k → get_symbol_kind_name k = toString k)
    ∧ strLower (get_symbol_kind_name 6) = "method"
    ∧ (∀ (fs out : Fields) (v : JVal),
      List.lookup "kind" fs = some v → isPyNonInt v = true →
      transform_symbol_result fs = some out →
      List.lookup "kind" out = some v)
    ∧ (∀ (fs out : Fields),
      List.lookup "kind" fs = some (.vbool true) →
      transform_symbol_result fs = some out →
      List.lookup "kind" out = some (.vstr "file"))
    ∧ (∀ (fs out : Fields),
      List.lookup "kind" fs = some (.vbool false) →
      transform_symbol_result fs = some out →
      List.lookup "kind" out = some (.vstr "false")) := by
  refine ⟨?_, ?_, ?_, by decide, ?_, ?_, ?_⟩
  · intro fs out k hk htr
    obtain ⟨a, c, h1, h3, h5⟩ := transform_eq_some.mp htr
    have hka : List.lookup "kind" a = some (.vint k) := by
      rw [step1_lookup h1 (by decide)]
      exact hk
    have e : step2 a = setKey a "kind"
        (.vstr (strLower (get_symbol_kind_name k))) := by
      unfold step2
      rw [hka]
    rw [post2_lookup h3 h5 (by decide) (by decide) (by decide), e,
      lookup_setKey_self]
  · intro k hk1 hk2
    interval_cases k <;> decide
  · intro k hk
    unfold get_symbol_kind_name
    rw [if_neg (show ¬ k = 1 by omega), if_neg (show ¬ k = 2 by omega),
      if_neg (show ¬ k = 3 by omega), if_neg (show ¬ k = 4 by omega),
      if_neg (show ¬ k = 5 by omega), if_neg (show ¬ k = 6 by omega),
      if_neg (show ¬ k = 7 by omega), if_neg (show ¬ k = 8 by omega),
      if_neg (show ¬ k = 9 by omega), if_neg (show ¬ k = 10 by omega),
      if_neg (show ¬ k = 11 by omega), if_neg (show ¬ k = 12 by omega),
      if_neg (show ¬ k = 13 by omega), if_neg (show ¬ k = 14 by omega),
      if_neg (show ¬ k = 15 by omega), if_neg (show ¬ k = 16 by omega),
      if_neg (show ¬ k = 17 by omega), if_neg (show ¬ k = 18 by omega),
      if_neg (show ¬ k = 19 by omega), if_neg (show ¬ k = 20 by omega),
      if_neg (show ¬ k = 21 by omega), if_neg (show ¬ k = 22 by omega),
      if_neg (show ¬ k = 23 by omega), if_neg (show ¬ k = 24 by omega),
      if_neg (show ¬ k = 25 by omega), if_neg (show ¬ k = 26 by omega)]
  · intro fs out v hv hni htr
    obtain ⟨a, c, h1, h3, h5⟩ := transform_eq_some.mp htr
    have hka : List.lookup "kind" a = some v := by
      rw [step1_lookup h1 (by decide)]
      exact hv
    have e : step2 a = a := step2_self (fun w hw => by
      rw [hka] at hw
      cases hw
      exact hni)
    rw [post2_lookup h3 h5 (by decide) (by decide) (by decide), e, hka]
  · intro fs out hk htr
    obtain ⟨a, c, h1, h3, h5⟩ := transform_eq_some.mp htr
    have hka : List.lookup "kind" a = some (.vbool true) := by
      rw [step1_lookup h1 (by decide)]
      exact hk
    have e : step2 a = setKey a "kind" (.vstr "file") := by
      unfold step2
      rw [hka]
    rw [post2_lookup h3 h5 (by decide) (by decide) (by decide), e,
      lookup_setKey_self]
  · intro fs out hk htr
    obtain ⟨a, c, h1, h3, h5⟩ := transform_eq_some.mp htr
    have hka : List.lookup "kind" a = some (.vbool false) := by
      rw [step1_lookup h1 (by decide)]
      exact hk
    have e : step2 a = setKey a "kind" (.vstr "false") := by
      unfold step2
      rw [hka]
    rw [post2_lookup h3 h5 (by decide) (by decide) (by decide), e,
      lookup_setKey_self]

/-- Witness for C2 at the record `{"kind": 6}`, which normalizes to
`{"kind": "method"}`. -/
theorem kind_mapping_c2_witness :
    List.lookup "kind" [("kind", JVal.vstr "method")]
      = some (.vstr (strLower (get_symbol_kind_name 6))) :=
  kind_mapping_c2.1 [("kind", .vint 6)] [("kind", .vstr "method")] 6
    (by decide) (by decide)

/-- C3 counterexample: a record whose `range` is the empty dict (so no
usable `start.line`/`end.line` pair) and whose `body_location` is
`{start_line: 10, end_line: 20}` does not end up with range
`{start_line: 10, end_line: 20}` — the elif skips `body_location` because
the `range` key is present as a dict. -/
theorem range_priority_c3_counterexample :
    ¬ ((transform_symbol_result
        [("range", .vobj []),
         ("body_location",
           .vobj [("start_line", .vint 10), ("end_line", .vint 20)])]).bind
        (fun r => List.lookup "range" r)
      = some (.vobj [("start_line", .vint 10), ("end_line", .vint 20)])) := by
  decide

/-- C3 (amended): (a) a dict `range` whose `start` and `end` dicts both
carry `line` becomes `{start_line, end_line}`; (b) a dict `body_location`
is installed as the range only when the `range` key is absent or not a
dict — a dict `range` on which the `"line" in start and "line" in end`
guard fails (any shape lacking the pair) is kept unchanged even when
`body_location` is present; (c) with the `range` key absent and
`body_location` absent or not a dict, the range is left unset. -/
theorem range_priority_c3_amended :
    (∀ (fs out r st en : Fields) (sl el : JVal),
      List.lookup "range" fs = some (.vobj r) →
      List.lookup "start" r = some (.vobj st) →
      List.lookup "end" r = some (.vobj en) →
      List.lookup "line" st = some sl →
      List.lookup "line" en = some el →
      transform_symbol_result fs = some out →
      List.lookup "range" out
        = some (.vobj [("start_line", sl), ("end_line", el)]))
    ∧ (∀ (fs out b : Fields),
      List.lookup "range" fs = none →
      List.lookup "body_location" fs = some (.vobj b) →
      transform_symbol_result fs = some out →
      List.lookup "range" out = some (.vobj b))
    ∧ (∀ (fs out b : Fields) (w : JVal),
      List.lookup "range" fs = some w → (∀ rr, w ≠ .vobj rr) →
      List.lookup "body_location" fs = some (.vobj b) →
      transform_symbol_result fs = some out →
      List.lookup "range" out = some (.vobj b))
    ∧ (∀ (fs out r : Fields),
      List.lookup "range" fs = some (.vobj r) →
      (containsLine ((List.lookup "start" r).getD (.vobj [])) = some false
        ∨ (containsLine ((List.lookup "start" r).getD (.vobj [])) = some true
          ∧ containsLine ((List.lookup "end" r).getD (.vobj []))
              = some false)) →
      transform_symbol_result fs = some out →
      List.lookup "range" out = some (.vobj r))
    ∧ (∀ (fs out : Fields),
      List.lookup "range" fs = none →
      List.lookup "body_location" fs = none →
      transform_symbol_result fs = some out →
      List.lookup "range" out = none)
    ∧ (∀ (fs out : Fields) (w : JVal),
      List.lookup "range" fs = none →
      List.lookup "body_location" fs = some w → (∀ bb, w ≠ .vobj bb) →
      transform_symbol_result fs = some out →
      List.lookup "range" out = none) := by
  refine ⟨?_, ?_, ?_, ?_, ?_, ?_⟩
  · intro fs out r st en sl el hr hst hen hlst hlen htr
    obtain ⟨a, c, h1, h3, h5⟩ := transform_eq_some.mp htr
    have hra : List.lookup "range" (step2 a) = some (.vobj r) := by
      rw [step2_lookup a (by decide), step1_lookup h1 (by decide)]
      exact hr
    rw [step3_lines hra hst hen hlst hlen] at h3
    cases h3
    rw [post3_lookup h5 (by decide) (by decide), lookup_setKey_self]
  · intro fs out b hr hb htr
    obtain ⟨a, c, h1, h3, h5⟩ := transform_eq_some.mp htr
    have hra : List.lookup "range" (step2 a) = none := by
      rw [step2_lookup a (by decide), step1_lookup h1 (by decide)]
      exact hr
    have hba : List.lookup "body_location" (step2 a) = some (.vobj b) := by
      rw [step2_lookup a (by decide), step1_lookup h1 (by decide)]
      exact hb
    rw [step3_bl_of_noRange hra hba] at h3
    cases h3
    rw [post3_lookup h5 (by decide) (by decide), lookup_setKey_self]
  · intro fs out b w hr hw hb htr
    obtain ⟨a, c, h1, h3, h5⟩ := transform_eq_some.mp htr
    have hra : List.lookup "range" (step2 a) = some w := by
      rw [step2_lookup a (by decide), step1_lookup h1 (by decide)]
      exact hr
    have hba : List.lookup "body_location" (step2 a) = some (.vobj b) := by
      rw [step2_lookup a (by decide), step1_lookup h1 (by decide)]
      exact hb
    rw [step3_bl_of_nonDict hra hw hba] at h3
    cases h3
    rw [post3_lookup h5 (by decide) (by decide), lookup_setKey_self]
  · intro fs out r hr hg htr
    obtain ⟨a, c, h1, h3, h5⟩ := transform_eq_some.mp htr
    have hra : List.lookup "range" (step2 a) = some (.vobj r) := by
      rw [step2_lookup a (by decide), step1_lookup h1 (by decide)]
      exact hr
    rw [step3_self_of_guardFail hra hg] at h3
    cases h3
    rw [post3_lookup h5 (by decide) (by decide)]
    exact hra
  · intro fs out hr hb htr
    obtain ⟨a, c, h1, h3, h5⟩ := transform_eq_some.mp htr
    have hra : List.lookup "range" (step2 a) = none := by
      rw [step2_lookup a (by decide), step1_lookup h1 (by decide)]
      exact hr
    have hba : List.lookup "body_location" (step2 a) = none := by
      rw [step2_lookup a (by decide), step1_lookup h1 (by decide)]
      exact hb
    rw [step3_self_of_noRange hra (fun bb hbb => by
      rw [hba] at hbb
      cases hbb)] at h3
    cases h3
    rw [post3_lookup h5 (by decide) (by decide)]
    exact hra
  · intro fs out w hr hb hw htr
    obtain ⟨a, c, h1, h3, h5⟩ := transform_eq_some.mp htr
    have hra : List.lookup "range" (step2 a) = none := by
      rw [step2_lookup a (by decide), step1_lookup h1 (by decide)]
      exact hr
    have hba : List.lookup "body_location" (step2 a) = some w := by
      rw [step2_lookup a (by decide), step1_lookup h1 (by decide)]
      exact hb
    rw [step3_self_of_noRange hra (fun bb hbb => by
      rw [hba] at hbb
      exact hw bb (Option.some_inj.mp hbb))] at h3
    cases h3
    rw [post3_lookup h5 (by decide) (by decide)]
    exact hra

/-- Witness for the amended C3 at a record with only
`body_location: {start_line: 10, end_line: 20}`: the body location is
installed verbatim as the range. -/
theorem range_priority_c3_amended_witness :
    List.lookup "range"
      [("body_location",
         JVal.vobj [("start_line", JVal.vint 10), ("end_line", JVal.vint 20)]),
       ("range",
         JVal.vobj [("start_line", JVal.vint 10), ("end_line", JVal.vint 20)])]
      = some (.vobj [("start_line", .vint 10), ("end_line", .vint 20)]) :=
  range_priority_c3_amended.2.1
    [("body_location",
       .vobj [("start_line", .vint 10), ("end_line", .vint 20)])]
    [("body_location",
       .vobj [("start_line", .vint 10), ("end_line", .vint 20)]),
     ("range", .vobj [("start_line", .vint 10), ("end_line", .vint 20)])]
    [("start_line", .vint 10), ("end_line", .vint 20)]
    (by decide) (by decide) (by decide)

/-- C4 counterexample: the normalizer returns a record whose only
location information is a `selection_range` completely unchanged — no
range is produced from `selection_range.start.line` (the code never reads
`selection_range`). -/
theorem selection_range_c4_counterexample :
    transform_symbol_result
        [("selection_range", .vobj [("start", .vobj [("line", .vint 5)])])]
      = some [("selection_range", .vobj [("start", .vobj [("line", .vint 5)])])]
    ∧ (transform_symbol_result
        [("selection_range", .vobj [("start", .vobj [("line", .vint 5)])])]).bind
        (fun r => List.lookup "range" r) = none :=
  ⟨by decide, by decide⟩

/-- C4 (amended): `selection_range` is ignored by the normalizer — a
record with no `range` key and no `body_location` key keeps no `range`
key, whatever `selection_range` it carries. -/
theorem selection_range_c4_amended :
    ∀ (fs out : Fields),
      List.lookup "range" fs = none →
      List.lookup "body_location" fs = none →
      transform_symbol_result fs = some out →
      List.lookup "range" out = none := by
  intro fs out hr hb htr
  obtain ⟨a, c, h1, h3, h5⟩ := transform_eq_some.mp htr
  have hra : List.lookup "range" (step2 a) = none := by
    rw [step2_lookup a (by decide), step1_lookup h1 (by decide)]
    exact hr
  have hba : List.lookup "body_location" (step2 a) = none := by
    rw [step2_lookup a (by decide), step1_lookup h1 (by decide)]
    exact hb
  rw [step3_self_of_noRange hra (fun bb hbb => by
    rw [hba] at hbb
    cases hbb)] at h3
  cases h3
  rw [post3_lookup h5 (by decide) (by decide)]
  exact hra

/-- Witness for the amended C4 at the selection-range-only record. -/
theorem selection_range_c4_amended_witness :
    List.lookup "range"
      [("selection_range",
         JVal.vobj [("start", JVal.vobj [("line", JVal.vint 5)])])]
      = none :=
  selection_range_c4_amended
    [("selection_range", .vobj [("start", .vobj [("line", .vint 5)])])]
    [("selection_range", .vobj [("start", .vobj [("line", .vint 5)])])]
    (by decide) (by decide) (by decide)

/-- C5 counterexample: normalization is not idempotent on the record
`{"body_location": {start: {line: 1}, end: {line: 2}}}` — the first pass
installs the LSP-style dict verbatim as the range, the second pass
rewrites it to `{start_line, end_line}`. -/
theorem idempotence_c5_counterexample :
    ¬ ((transform_symbol_result
        [("body_location",
          .vobj [("start", .vobj [("line", .vint 1)]),
                 ("end", .vobj [("line", .vint 2)])])]).bind
        transform_symbol_result
      = transform_symbol_result
        [("body_location",
          .vobj [("start", .vobj [("line", .vint 1)]),
                 ("end", .vobj [("line", .vint 2)])])]) := by
  decide

/-- C5 (amended): normalization is idempotent on every record whose
normalized form carries no `range`, or a dict `range` with no `start`
member — in particular on every already-normalized record with the
canonical `{start_line, end_line}` range; re-applying the normalizer
returns it unchanged. -/
theorem idempotence_c5_amended :
    ∀ fs out : Fields, transform_symbol_result fs = some out →
      (List.lookup "range" out = none ∨
        ∃ r, List.lookup "range" out = some (.vobj r) ∧
          List.lookup "start" r = none) →
      transform_symbol_result out = some out :=
  fun _ _ htr hrange => transform_idempotent_core htr hrange

/-- Witness for the amended C5 at the normalization of the typical raw
record from the repository's tests. -/
theorem idempotence_c5_witness :
    transform_symbol_result
      [("name_path", JVal.vstr "MyClass/my_method[0]"),
       ("kind", JVal.vstr "method"),
       ("body_location",
         JVal.vobj [("start_line", JVal.vint 10), ("end_line", JVal.vint 20)]),
       ("relative_path", JVal.vstr "src/foo.py"),
       ("name", JVal.vstr "my_method"),
       ("range",
         JVal.vobj [("start_line", JVal.vint 10), ("end_line", JVal.vint 20)]),
       ("file", JVal.vstr "src/foo.py"),
       ("language", JVal.vstr "python")]
    = some
      [("name_path", JVal.vstr "MyClass/my_method[0]"),
       ("kind", JVal.vstr "method"),
       ("body_location",
         JVal.vobj [("start_line", JVal.vint 10), ("end_line", JVal.vint 20)]),
       ("relative_path", JVal.vstr "src/foo.py"),
       ("name", JVal.vstr "my_method"),
       ("range",
         JVal.vobj [("start_line", JVal.vint 10), ("end_line", JVal.vint 20)]),
       ("file", JVal.vstr "src/foo.py"),
       ("language", JVal.vstr "python")] :=
  idempotence_c5_amended
    [("name_path", .vstr "MyClass/my_method[0]"), ("kind", .vint 6),
     ("body_location",
       .vobj [("start_line", .vint 10), ("end_line", .vint 20)]),
     ("relative_path", .vstr "src/foo.py")]
    [("name_path", .vstr "MyClass/my_method[0]"), ("kind", .vstr "method"),
     ("body_location",
       .vobj [("start_line", .vint 10), ("end_line", .vint 20)]),
     ("relative_path", .vstr "src/foo.py"),
     ("name", .vstr "my_method"),
     ("range", .vobj [("start_line", .vint 10), ("end_line", .vint 20)]),
     ("file", .vstr "src/foo.py"),
     ("language", .vstr "python")]
    (by decide)
    (Or.inr ⟨[("start_line", .vint 10), ("end_line", .vint 20)],
      by decide, by decide⟩)

/-! ## Pipeline lemmas and claims C6–C10 -/

/-- A successful language filter keeps exactly the items whose lowered
language equals the target, in order. -/
theorem filterLang_eq {t : String} : ∀ {xs f : List JVal},
    filterLang t xs = some f →
    f = xs.filter (fun x => langKey x == some t) := by
  intro xs
  induction xs with
  | nil =>
      intro f h
      cases h
      rfl
  | cons x rest ih =>
      intro f h
      unfold filterLang at h
      cases hlk : langKey x with
      | none =>
          rw [hlk] at h
          cases h
      | some l =>
          rw [hlk] at h
          cases hr : filterLang t rest with
          | none =>
              rw [hr] at h
              cases h
          | some f2 =>
              rw [hr] at h
              cases h
              by_cases hl : l = t
              · subst hl
                simp [List.filter_cons, hlk, ih hr]
              · simp [List.filter_cons, hlk, hl, ih hr]

/-- C6 counterexample: an invocation carrying the (empty) language hint
`""` skips filtering entirely — a record whose inferred language is
`"python"` (which does not equal the hint) is still returned. -/
theorem language_filter_c6_counterexample :
    runFindSymbol .json (some "") none
        ⟨false, [Block.textContent "[...]"
          (some (.vlist [.vobj [("relative_path", .vstr "a.py")]]))]⟩
      = .ok (.jsonVal (.vobj [("results", .vlist
          [.vobj [("relative_path", .vstr "a.py"), ("file", .vstr "a.py"),
                  ("language", .vstr "python")]])]), [])
    ∧ langKey (.vobj [("relative_path", .vstr "a.py"), ("file", .vstr "a.py"),
        ("language", .vstr "python")]) = some "python"
    ∧ ("python" : String) ≠ strLower "" :=
  ⟨rfl, rfl, by decide⟩

/-- C6 (amended): for every find-symbol invocation with a non-empty
--language hint L, the hint is never put in the tool-call arguments (they
hold only `name_path_pattern`), and the client-side pipeline first keeps
exactly the normalized records whose language equals L case-insensitively
and only then applies the --limit truncation.  (An empty hint is falsy in
Python and disables the filter.) -/
theorem language_filter_c6_amended :
    (∀ n : String,
      find_symbol_tool_args n = [("name_path_pattern", .vstr n)]
      ∧ List.lookup "language" (find_symbol_tool_args n) = none)
    ∧ (∀ (t : String) (xs f : List JVal), filterLang t xs = some f →
        f = xs.filter (fun x => langKey x == some t))
    ∧ (∀ (L : String) (lim : Option Int) (raw norm f : List JVal),
        L ≠ "" →
        List.mapM transformVal raw = some norm →
        filterLang (strLower L) norm = some f →
        processRecords (some L) lim raw
          = some (applyLimit lim (norm.filter
              (fun x => langKey x == some (strLower L))))) := by
  refine ⟨fun n => ⟨rfl, rfl⟩, fun t xs f h => filterLang_eq h, ?_⟩
  intro L lim raw norm f hL hmap hf
  have e : processRecords (some L) lim raw
      = (if L = "" then some norm
         else filterLang (strLower L) norm).map
          (fun filtered => applyLimit lim filtered) := by
    unfold processRecords
    rw [hmap]
    rfl
  rw [e, if_neg hL, hf]
  rw [filterLang_eq hf]
  rfl

/-- Witness for the amended C6: filtering two normalized records on the
hint `"TypeScript"` (note the case) keeps exactly the `.ts` one, then the
limit applies. -/
theorem language_filter_c6_amended_witness :
    processRecords (some "TypeScript") (some 5)
        [.vobj [("relative_path", .vstr "a.py")],
         .vobj [("relative_path", .vstr "b.ts")]]
      = some (applyLimit (some 5)
          (List.filter (fun x => langKey x == some (strLower "TypeScript"))
            [.vobj [("relative_path", .vstr "a.py"), ("file", .vstr "a.py"),
                    ("language", .vstr "python")],
             .vobj [("relative_path", .vstr "b.ts"), ("file", .vstr "b.ts"),
                    ("language", .vstr "typescript")]])) :=
  language_filter_c6_amended.2.2 "TypeScript" (some 5)
    [.vobj [("relative_path", .vstr "a.py")],
     .vobj [("relative_path", .vstr "b.ts")]]
    [.vobj [("relative_path", .vstr "a.py"), ("file", .vstr "a.py"),
            ("language", .vstr "python")],
     .vobj [("relative_path", .vstr "b.ts"), ("file", .vstr "b.ts"),
            ("language", .vstr "typescript")]]
    [.vobj [("relative_path", .vstr "b.ts"), ("file", .vstr "b.ts"),
            ("language", .vstr "typescript")]]
    (by decide) (by decide) (by decide)

/-- C7: when the final (normalized, filtered, limited) record list is
empty and the response is not an error, text mode prints exactly the
literal line "No symbols found." and JSON mode prints the envelope
{"results": []}; collected warnings pass through unchanged. -/
theorem empty_results_c7 :
    ∀ (language : Option String) (limit : Option Int) (resp : ToolResponse),
      resp.isError = false →
      processRecords language limit (collectContent resp.content).1
        = some [] →
      runFindSymbol .text language limit resp
        = .ok (.textLines ["No symbols found."],
            (collectContent resp.content).2)
      ∧ runFindSymbol .json language limit resp
        = .ok (.jsonVal (.vobj [("results", .vlist [])]),
            (collectContent resp.content).2) := by
  intro language limit resp hne hpe
  constructor
  · unfold runFindSymbol
    rw [if_neg (by rw [hne]; exact Bool.false_ne_true)]
    simp only [hpe]
    rfl
  · unfold runFindSymbol
    rw [if_neg (by rw [hne]; exact Bool.false_ne_true)]
    simp only [hpe]
    rfl

/-- Witness for C7: a response with one content block decoding to the
empty list, under a language filter and a limit. -/
theorem empty_results_c7_witness :
    runFindSymbol .text (some "python") (some 3)
        ⟨false, [Block.textContent "[]" (some (.vlist []))]⟩
      = .ok (.textLines ["No symbols found."], [])
    ∧ runFindSymbol .json (some "python") (some 3)
        ⟨false, [Block.textContent "[]" (some (.vlist []))]⟩
      = .ok (.jsonVal (.vobj [("results", .vlist [])]), []) :=
  empty_results_c7 (some "python") (some 3)
    ⟨false, [Block.textContent "[]" (some (.vlist []))]⟩ rfl rfl

/-- Content collection distributes over appending block lists. -/
theorem collectContent_append : ∀ xs ys : List Block,
    collectContent (xs ++ ys)
      = ((collectContent xs).1 ++ (collectContent ys).1,
         (collectContent xs).2 ++ (collectContent ys).2) := by
  intro xs ys
  induction xs with
  | nil => simp [collectContent]
  | cons b rest ih =>
      cases b with
      | textContent t p =>
          cases p with
          | none => simp [collectContent, ih]
          | some v => cases v <;> simp [collectContent, ih]
      | otherContent => simp [collectContent, ih]

/-- C8: a content block whose text is not valid JSON contributes no
records — a warning naming its text is written to the error stream, the
block is skipped, the remaining blocks are still processed, and an
invocation that would succeed without the block still succeeds with the
same output (never a non-zero exit from the malformed block alone). -/
theorem malformed_block_c8 :
    ∀ (fmt : OutputFormat) (language : Option String) (limit : Option Int)
      (pre post : List Block) (t : String),
      (collectContent (pre ++ Block.textContent t none :: post)).1
        = (collectContent (pre ++ post)).1
      ∧ ("Warning: Non-JSON response received: " ++ t)
          ∈ (collectContent (pre ++ Block.textContent t none :: post)).2
      ∧ (∀ out ws,
          runFindSymbol fmt language limit ⟨false, pre ++ post⟩
            = .ok (out, ws) →
          runFindSymbol fmt language limit
              ⟨false, pre ++ Block.textContent t none :: post⟩
            = .ok (out,
                (collectContent
                  (pre ++ Block.textContent t none :: post)).2)) := by
  intro fmt language limit pre post t
  have hc1 : (collectContent (pre ++ Block.textContent t none :: post)).1
      = (collectContent (pre ++ post)).1 := by
    rw [show Block.textContent t none :: post
        = [Block.textContent t none] ++ post from rfl,
      collectContent_append, collectContent_append, collectContent_append]
    simp [collectContent]
  have runEq : ∀ (blocks : List Block),
      runFindSymbol fmt language limit ⟨false, blocks⟩
        = match processRecords language limit (collectContent blocks).1 with
          | none => Except.error CliError.exception
          | some finalRecs =>
              match renderFindSymbol fmt finalRecs with
              | none => Except.error CliError.exception
              | some o => Except.ok (o, (collectContent blocks).2) :=
    fun _ => rfl
  refine ⟨hc1, ?_, ?_⟩
  · rw [show Block.textContent t none :: post
        = [Block.textContent t none] ++ post from rfl,
      collectContent_append, collectContent_append]
    simp [collectContent]
  · intro out ws h
    rw [runEq] at h ⊢
    rw [hc1]
    cases hp : processRecords language limit
        (collectContent (pre ++ post)).1 with
    | none =>
        rw [hp] at h
        cases h
    | some finalRecs =>
        rw [hp] at h
        replace h : (match renderFindSymbol fmt finalRecs with
            | none => Except.error CliError.exception
            | some o => Except.ok (o, (collectContent (pre ++ post)).2))
            = Except.ok (out, ws) := h
        show (match renderFindSymbol fmt finalRecs with
            | none => Except.error CliError.exception
            | some o => Except.ok (o,
                (collectContent
                  (pre ++ Block.textContent t none :: post)).2))
            = Except.ok (out,
                (collectContent (pre ++ Block.textContent t none :: post)).2)
        cases hr : renderFindSymbol fmt finalRecs with
        | none =>
            rw [hr] at h
            cases h
        | some o =>
            rw [hr] at h
            cases h
            rfl

/-- Witness for C8: a lone malformed block yields the empty result list,
a warning, and a zero-exit text rendering. -/
theorem malformed_block_c8_witness :
    runFindSymbol .text none none
        ⟨false, [] ++ Block.textContent "oops" none :: []⟩
      = .ok (.textLines ["No symbols found."],
          (collectContent ([] ++ Block.textContent "oops" none :: [])).2) :=
  (malformed_block_c8 .text none none [] [] "oops").2.2
    (.textLines ["No symbols found."]) [] rfl

/-- C9: a --limit of 0 is falsy in Python and performs no truncation (the
pipeline coincides with the no-limit pipeline), while a negative --limit
-k slices `[: -k]`, removing exactly the last k records rather than
limiting the count to k or erroring. -/
theorem limit_semantics_c9 :
    (∀ (language : Option String) (raw : List JVal),
      processRecords language (some 0) raw
        = processRecords language none raw)
    ∧ (∀ xs : List JVal, applyLimit (some 0) xs = xs)
    ∧ (∀ (xs : List JVal) (k : Nat), 0 < k →
      applyLimit (some (-(k : Int))) xs = xs.take (xs.length - k)) := by
  have e : ∀ xs : List JVal, applyLimit (some 0) xs = applyLimit none xs :=
    fun _ => rfl
  refine ⟨?_, ?_, ?_⟩
  · intro language raw
    unfold processRecords
    simp only [e]
  · intro xs
    rw [e]
    rfl
  · intro xs k hk
    have e1 : applyLimit (some (-(k : Int))) xs
        = if -(k : Int) = 0 then xs else pySliceTake (-(k : Int)) xs := rfl
    rw [e1, if_neg (show ¬ -(k : Int) = 0 by omega)]
    unfold pySliceTake
    rw [if_neg (show ¬ (0 : Int) ≤ -(k : Int) by omega)]
    congr 1
    omega

/-- Witness for C9: a limit of -2 on three records removes the last
two. -/
theorem limit_semantics_c9_witness :
    applyLimit (some (-(2 : Nat) : Int)) [.vint 1, .vint 2, .vint 3]
      = List.take (List.length [JVal.vint 1, .vint 2, .vint 3] - 2)
          [.vint 1, .vint 2, .vint 3] :=
  limit_semantics_c9.2.2 [.vint 1, .vint 2, .vint 3] 2 (by decide)

/-- C10: `get_status` is total by construction (every exception of the
agent or project lookup is a value of `StatusEnv`) and always returns
exactly the keys serena_available, project_detected and index_state, with
serena_available mirroring the import flag; whenever the library is
missing, the agent fails, or the project lookup raises or returns `None`,
the defaults `False` and `"unknown"` are kept. -/
theorem get_status_total_c10 :
    ∀ env : StatusEnv,
      (get_status env).map Prod.fst
        = ["serena_available", "project_detected", "index_state"]
      ∧ List.lookup "serena_available" (get_status env)
          = some (.vbool env.serenaAvailable)
      ∧ ((env.serenaAvailable = false ∨ env.ensureAgentRaises = true ∨
          env.getProject = .error () ∨ env.getProject = .ok none) →
        List.lookup "project_detected" (get_status env)
            = some (.vbool false)
        ∧ List.lookup "index_state" (get_status env)
            = some (.vstr "unknown")) := by
  intro env
  rcases env with ⟨av, ar, u | op⟩
  · cases av <;> cases ar <;> exact ⟨rfl, rfl, fun h => ⟨rfl, rfl⟩⟩
  · rcases op with _ | p
    · cases av <;> cases ar <;> exact ⟨rfl, rfl, fun h => ⟨rfl, rfl⟩⟩
    · cases av
      · cases ar <;> exact ⟨rfl, rfl, fun h => ⟨rfl, rfl⟩⟩
      · cases ar
        · refine ⟨rfl, rfl, fun h => ?_⟩
          rcases h with h | h | h | h
          · cases h
          · cases h
          · cases h
          · simp at h
        · exact ⟨rfl, rfl, fun h => ⟨rfl, rfl⟩⟩

/-- Witness for C10: an environment where the agent construction fails
keeps all defaults. -/
theorem get_status_total_c10_witness :
    List.lookup "project_detected" (get_status ⟨true, true, .ok none⟩)
        = some (.vbool false)
    ∧ List.lookup "index_state" (get_status ⟨true, true, .ok none⟩)
        = some (.vstr "unknown") :=
  (get_status_total_c10 ⟨true, true, .ok none⟩).2.2 (Or.inr (Or.inl rfl))

end SerenaCLI
